import Mathlib

/-!
Shallow embedding of the mood-logging program (src/main.py and
src/data_manager.py).

Modelling conventions:
* the CSV log file is a parsed row list, `Option (List Row)` with `none`
  for a missing file (Python's csv module is the external reader);
* calendar days are integer day ordinals; the datetime library's
  `isoformat` and `fromisoformat` are dependency-injected parameters,
  and `date.today()` is an explicit `today : Int` argument;
* Python's `random.choice` takes an explicit index `rng : Nat` and
  returns the element at `rng % length`;
* a read failure inside `upgrade_csv_schema`'s try block (other than a
  missing file) is injected as a boolean `read_fails` flag.
-/

namespace Mood

/-- A CSV row, as produced by Python's csv.reader. -/
abbrev Row := List String

/-- The ASCII whitespace characters Python str.strip removes from the
strings this log can contain. -/
def pyWhitespace (c : Char) : Bool :=
  c = ' ' || c = '\t' || c = '\n' || c = '\r'

/-- Models Python str.strip: drop whitespace from both ends. -/
def pyStrip (s : String) : String :=
  String.mk (((s.toList.dropWhile pyWhitespace).reverse.dropWhile pyWhitespace).reverse)

/-- Digit-run accumulator for `parseInt`; `none` on any non-digit. -/
def digits_to_nat : Nat → List Char → Option Nat
  | acc, [] => some acc
  | acc, c :: rest =>
    if c.isDigit then digits_to_nat (10 * acc + (c.toNat - 48)) rest else none

/-- Models Python int(str): optional surrounding whitespace, an optional
sign, then a non-empty run of decimal digits. -/
def parseInt (s : String) : Option Int :=
  match (pyStrip s).toList with
  | [] => none
  | '-' :: rest =>
    if rest = [] then none else (digits_to_nat 0 rest).map (fun n => -(n : Int))
  | '+' :: rest =>
    if rest = [] then none else (digits_to_nat 0 rest).map (fun n => (n : Int))
  | cs => (digits_to_nat 0 cs).map (fun n => (n : Int))

/-- Models Python round on a rational value: round half to even. -/
def pyRound (q : ℚ) : Int :=
  let f : Int := ⌊q⌋
  if q - (f : ℚ) < 1 / 2 then f
  else if 1 / 2 < q - (f : ℚ) then f + 1
  else if f % 2 = 0 then f else f + 1

end Mood

namespace MoodMain

open Mood

/-- The v2 header row `date,score,message,note` written by migration
(src/main.py, `upgrade_csv_schema` / `ensure_storage`). -/
def v2header : Row := ["date", "score", "message", "note"]

/-- One row of the migration rewrite loop: a 3-field row gets an empty
note field appended, any other field count passes through unchanged. -/
def padRow (r : Row) : Row := if r.length = 3 then r ++ [""] else r

/-- src/main.py `upgrade_csv_schema`.  `none` (missing file) hits the
FileNotFoundError handler and returns with the file still missing;
`read_fails = true` hits the generic exception handler and returns with
the file unchanged.  An empty file has header `None` in the source and is
rewritten to a header-only v2 file; a 3-field header triggers the full
rewrite; any other header leaves the file untouched. -/
def upgrade_csv_schema (read_fails : Bool) (file : Option (List Row)) :
    Option (List Row) :=
  match file with
  | none => none
  | some content =>
    if read_fails then some content
    else
      match content with
      | [] => some [v2header]
      | header :: rows =>
        if header.length = 3 then some (v2header :: rows.map padRow)
        else some (header :: rows)

/-- The message bank loaded from messages.json: a dict whose keys
"low"/"mid"/"high" may each be absent. -/
structure MessageBank where
  low : Option (List String)
  mid : Option (List String)
  high : Option (List String)

/-- Python `messages.get(k) or [default]`: the default list is used when
the key is absent or its list is empty (falsy). -/
def or_default (o : Option (List String)) (dflt : List String) : List String :=
  match o with
  | none => dflt
  | some l => if l = [] then dflt else l

/-- The tier-pool selection at the top of src/main.py `choose_message`:
score ≤ 4 → low, score ≤ 7 → mid, otherwise high, each with its
built-in single-message fallback. -/
def tier_pool (score : Int) (messages : MessageBank) : List String :=
  if score ≤ 4 then or_default messages.low ["再难也会过去的，你已经很棒了。"]
  else if score ≤ 7 then or_default messages.mid ["保持节奏，稳步向前，就是胜利。"]
  else or_default messages.high ["状态绝佳，继续发光！"]

/-- The combined exclusion set of `choose_message`: the optional single
exclusion plus the recent-use set. -/
def exclusion_set (exclude : Option String) (excludes : Finset String) :
    Finset String :=
  (match exclude with
   | some e => {e}
   | none => (∅ : Finset String)) ∪ excludes

/-- Models random.choice on a non-empty list: the element at
`rng % length` (on an empty list Python would raise; the model returns
the empty string, a case `choose_message` never reaches). -/
def random_choice (rng : Nat) (pool : List String) : String :=
  pool.getD (rng % pool.length) ""

/-- src/main.py `choose_message`: filter the tier pool by the exclusion
set; if candidates remain pick among them, else fall back to the
unfiltered pool. -/
def choose_message (rng : Nat) (score : Int) (messages : MessageBank)
    (exclude : Option String) (excludes : Finset String) : String :=
  let pool := tier_pool score messages
  let candidates := pool.filter (fun m => m ∉ exclusion_set exclude excludes)
  if candidates = [] then random_choice rng pool
  else random_choice rng candidates

/-- The row loop of src/main.py `read_recent_messages`: rows with at
least 3 fields whose stripped date field parses and falls inside
[cutoff, today] contribute their message field to the set. -/
def recent_loop (parseIso : String → Option Int) (cutoff today : Int) :
    Finset String → List Row → Finset String
  | used, [] => used
  | used, r :: rest =>
    if 3 ≤ r.length then
      match parseIso (pyStrip (r.getD 0 "")) with
      | some d =>
        if cutoff ≤ d ∧ d ≤ today then
          recent_loop parseIso cutoff today (insert (r.getD 2 "") used) rest
        else recent_loop parseIso cutoff today used rest
      | none => recent_loop parseIso cutoff today used rest
    else recent_loop parseIso cutoff today used rest

/-- src/main.py `read_recent_messages`: the set of message texts used in
the trailing `last_days`-day window ending `today`; the header row is
skipped, a missing file yields the empty set. -/
def read_recent_messages (parseIso : String → Option Int) (today : Int)
    (last_days : Int) (file : Option (List Row)) : Finset String :=
  match file with
  | none => ∅
  | some content =>
    recent_loop parseIso (today - (last_days - 1)) today ∅ content.tail

/-- The row loop of src/main.py `read_all_records`: rows with at least 2
fields and an int-parsable score yield a (stripped day, score) pair,
all other rows are skipped. -/
def read_rows : List Row → List (String × Int)
  | [] => []
  | r :: rest =>
    if 2 ≤ r.length then
      match parseInt (r.getD 1 "") with
      | some score => (pyStrip (r.getD 0 ""), score) :: read_rows rest
      | none => read_rows rest
    else read_rows rest

/-- src/main.py `read_all_records`: missing file → empty list, otherwise
the header row is skipped and the data rows are parsed by `read_rows`. -/
def read_all_records (file : Option (List Row)) : List (String × Int) :=
  match file with
  | none => []
  | some content => read_rows content.tail

/-- The loop of src/main.py `aggregate_daily_average`, with the two
Python dicts `sums` and `counts` modelled as lookup functions threaded
through the iteration. -/
def agg_loop : (String → Option Int) → (String → Option Int) →
    List (String × Int) → (String → Option Int) × (String → Option Int)
  | sums, counts, [] => (sums, counts)
  | sums, counts, (d, s) :: rest =>
    agg_loop
      (fun x => if x = d then some ((sums d).getD 0 + s) else sums x)
      (fun x => if x = d then some ((counts d).getD 0 + 1) else counts x)
      rest

/-- src/main.py `aggregate_daily_average`, as the lookup function of the
resulting dict: the per-day mean of scores for days that occur, absent
otherwise. -/
def aggregate_daily_average (records : List (String × Int)) :
    String → Option ℚ :=
  let sc := agg_loop (fun _ => none) (fun _ => none) records
  fun d =>
    match sc.1 d, sc.2 d with
    | some s, some c => some ((s : ℚ) / (c : ℚ))
    | _, _ => none

/-- src/main.py `last_n_dates`: the ISO labels of the `n` days ending at
`today`, oldest first (Python iterates i over range(n-1, -1, -1)). -/
def last_n_dates (iso : Int → String) (today : Int) (n : Nat) : List String :=
  let days := (List.range n).reverse.map (fun i : Nat => today - (i : Int))
  days.map iso

/-- The glyph string of src/main.py `to_sparkline`, as its character
list. -/
def blocks : List Char := ['▁', '▂', '▃', '▄', '▅', '▆', '▇', '█']

/-- The per-element mapping of src/main.py `to_sparkline`: absent → the
placeholder dot; present → clamp to [1,10], map linearly onto 0..7,
round, clamp, and index the glyph list. -/
def glyph : Option ℚ → Char
  | none => '·'
  | some v =>
    let w := max 1 (min 10 v)
    let idx := pyRound ((w - 1) / 9 * 7)
    blocks.getD (Int.toNat (max 0 (min 7 idx))) '·'

/-- src/main.py `to_sparkline`: one glyph per input element, joined. -/
def to_sparkline (values : List (Option ℚ)) : String :=
  String.mk (values.map glyph)

end MoodMain

namespace DataManager

open Mood

/-- The row loop of src/data_manager.py `_read_all_records` (duplicate
of the one in src/main.py). -/
def read_rows : List Row → List (String × Int)
  | [] => []
  | r :: rest =>
    if 2 ≤ r.length then
      match parseInt (r.getD 1 "") with
      | some score => (pyStrip (r.getD 0 ""), score) :: read_rows rest
      | none => read_rows rest
    else read_rows rest

/-- src/data_manager.py `_read_all_records`. -/
def read_all_records (file : Option (List Row)) : List (String × Int) :=
  match file with
  | none => []
  | some content => read_rows content.tail

/-- The loop of src/data_manager.py `_aggregate_daily_average`. -/
def agg_loop : (String → Option Int) → (String → Option Int) →
    List (String × Int) → (String → Option Int) × (String → Option Int)
  | sums, counts, [] => (sums, counts)
  | sums, counts, (d, s) :: rest =>
    agg_loop
      (fun x => if x = d then some ((sums d).getD 0 + s) else sums x)
      (fun x => if x = d then some ((counts d).getD 0 + 1) else counts x)
      rest

/-- src/data_manager.py `_aggregate_daily_average`. -/
def aggregate_daily_average (records : List (String × Int)) :
    String → Option ℚ :=
  let sc := agg_loop (fun _ => none) (fun _ => none) records
  fun d =>
    match sc.1 d, sc.2 d with
    | some s, some c => some ((s : ℚ) / (c : ℚ))
    | _, _ => none

/-- src/data_manager.py `_last_n_dates`. -/
def last_n_dates (iso : Int → String) (today : Int) (n : Nat) : List String :=
  let days := (List.range n).reverse.map (fun i : Nat => today - (i : Int))
  days.map iso

/-- The glyph string of src/data_manager.py `_to_sparkline`. -/
def blocks : List Char := ['▁', '▂', '▃', '▄', '▅', '▆', '▇', '█']

/-- The per-element mapping of src/data_manager.py `_to_sparkline`. -/
def glyph : Option ℚ → Char
  | none => '·'
  | some v =>
    let w := max 1 (min 10 v)
    let idx := pyRound ((w - 1) / 9 * 7)
    blocks.getD (Int.toNat (max 0 (min 7 idx))) '·'

/-- src/data_manager.py `_to_sparkline`. -/
def to_sparkline (values : List (Option ℚ)) : String :=
  String.mk (values.map glyph)

/-- src/data_manager.py `_read_aligned_series` (the same composition is
inlined in src/main.py `show_recent_stats`): when no record parses the
function returns the empty pair of lists; otherwise the labels of the
trailing `last_days` days together with each day's average, absent for
days without records. -/
def read_aligned_series (iso : Int → String) (today : Int) (last_days : Nat)
    (file : Option (List Row)) : List String × List (Option ℚ) :=
  let records := read_all_records file
  if records = [] then ([], [])
  else
    let daily_avg := aggregate_daily_average records
    let days := last_n_dates iso today last_days
    (days, days.map (fun d => daily_avg d))

end DataManager

/-! ## Helper lemmas -/

theorem read_rows_eq_filterMap (l : List Mood.Row) :
    MoodMain.read_rows l = l.filterMap (fun r =>
      if 2 ≤ r.length then
        (Mood.parseInt (r.getD 1 "")).map (fun n => (Mood.pyStrip (r.getD 0 ""), n))
      else none) := by
  induction l with
  | nil => rfl
  | cons r rest ih =>
    simp only [MoodMain.read_rows, List.filterMap_cons]
    by_cases h2 : 2 ≤ r.length
    · simp only [if_pos h2]
      cases hp : Mood.parseInt (r.getD 1 "") with
      | none => simpa [hp] using ih
      | some n => simp [hp, ih]
    · simp [if_neg h2, ih]

theorem upgrade_csv_schema_eq_of_ne_three (h : Mood.Row) (t : List Mood.Row)
    (hne : h.length ≠ 3) :
    MoodMain.upgrade_csv_schema false (some (h :: t)) = some (h :: t) := by
  simp [MoodMain.upgrade_csv_schema, hne]

/-! ## Claim theorems (C2, C3, C6, C7) -/

/-- C2: `upgradeSchema` is idempotent: a second run after a first run
leaves the (row-level) file contents identical, and a file whose header
already has 4 or more fields is never rewritten. -/
theorem upgrade_idempotent (file : Option (List Mood.Row)) :
    MoodMain.upgrade_csv_schema false (MoodMain.upgrade_csv_schema false file) =
      MoodMain.upgrade_csv_schema false file ∧
    ∀ (h : Mood.Row) (t : List Mood.Row), 4 ≤ h.length →
      MoodMain.upgrade_csv_schema false (some (h :: t)) = some (h :: t) := by
  constructor
  · match file with
    | none => rfl
    | some [] => rfl
    | some (h :: t) =>
      by_cases h3 : h.length = 3
      · simp [MoodMain.upgrade_csv_schema, h3, MoodMain.v2header]
      · simp [MoodMain.upgrade_csv_schema, h3]
  · intro h t h4
    exact upgrade_csv_schema_eq_of_ne_three h t (by omega)

theorem upgrade_idempotent_witness :
    4 ≤ (["date", "score", "message", "note"] : Mood.Row).length ∧
    MoodMain.upgrade_csv_schema false (some [["date", "score", "message", "note"]]) =
      some [["date", "score", "message", "note"]] :=
  ⟨by decide,
    (upgrade_idempotent none).2 ["date", "score", "message", "note"] [] (by decide)⟩

/-- C3: when reading the log fails during migration (missing file, or
any read error) the migration aborts with the file contents unchanged,
and the function returns normally (no error propagates). -/
theorem upgrade_abort_on_failure (file : Option (List Mood.Row)) (b : Bool) :
    MoodMain.upgrade_csv_schema true file = file ∧
    MoodMain.upgrade_csv_schema b none = none := by
  constructor
  · match file with
    | none => rfl
    | some c => rfl
  · cases b <;> rfl

/-- C6: migrating a file with a 3-field header rewrites it with the
4-field header, appends an empty 4th field to every 3-field row and
passes rows with a different field count through unchanged; the concrete
v1 round-trip yields [("2024-01-01", 5)] under a 4-column header. -/
theorem upgrade_v1_spec (h : Mood.Row) (rows : List Mood.Row) (h3 : h.length = 3) :
    MoodMain.upgrade_csv_schema false (some (h :: rows)) =
      some (MoodMain.v2header :: rows.map MoodMain.padRow) ∧
    (∀ r : Mood.Row, r.length = 3 → MoodMain.padRow r = r ++ [""]) ∧
    (∀ r : Mood.Row, r.length ≠ 3 → MoodMain.padRow r = r) ∧
    MoodMain.v2header.length = 4 ∧
    MoodMain.upgrade_csv_schema false
        (some [["date", "score", "message"], ["2024-01-01", "5", "hi"]]) =
      some [MoodMain.v2header, ["2024-01-01", "5", "hi", ""]] ∧
    MoodMain.read_all_records (some [MoodMain.v2header, ["2024-01-01", "5", "hi", ""]]) =
      [("2024-01-01", 5)] := by
  refine ⟨?_, ?_, ?_, by decide, by decide, by decide⟩
  · simp [MoodMain.upgrade_csv_schema, h3]
  · intro r hr; simp [MoodMain.padRow, hr]
  · intro r hr; simp [MoodMain.padRow, hr]

theorem upgrade_v1_spec_witness :
    (["date", "score", "message"] : Mood.Row).length = 3 ∧
    MoodMain.upgrade_csv_schema false (some [["date", "score", "message"]]) =
      some [MoodMain.v2header] := by
  refine ⟨by decide, ?_⟩
  have := (upgrade_v1_spec ["date", "score", "message"] [] (by decide)).1
  simpa using this

/-- C7: `readAll` returns, in file order, one (stripped day, score) pair
per data row (the header is skipped) that has at least 2 fields and an
int-parsable score; every other row is silently skipped, and a missing
file yields the empty list. -/
theorem read_all_records_spec :
    (∀ rows : List Mood.Row,
      MoodMain.read_all_records (some rows) = rows.tail.filterMap (fun r =>
        if 2 ≤ r.length then
          (Mood.parseInt (r.getD 1 "")).map (fun n => (Mood.pyStrip (r.getD 0 ""), n))
        else none)) ∧
    MoodMain.read_all_records none = [] := by
  constructor
  · intro rows
    simpa [MoodMain.read_all_records] using read_rows_eq_filterMap rows.tail
  · rfl

/-! ## Helpers for message selection -/

theorem random_choice_mem (rng : Nat) (pool : List String) (hne : pool ≠ []) :
    MoodMain.random_choice rng pool ∈ pool := by
  have hlen : 0 < pool.length := List.length_pos.mpr hne
  have hmod : rng % pool.length < pool.length := Nat.mod_lt _ hlen
  rw [MoodMain.random_choice, List.getD_eq_getElem?_getD, List.getElem?_eq_getElem hmod]
  exact List.getElem_mem hmod

theorem or_default_ne_nil (o : Option (List String)) (dflt : List String)
    (hd : dflt ≠ []) : MoodMain.or_default o dflt ≠ [] := by
  match o with
  | none => exact hd
  | some l =>
    by_cases hl : l = []
    · simpa [MoodMain.or_default, hl] using hd
    · simp [MoodMain.or_default, hl]

theorem tier_pool_ne_nil (score : Int) (messages : MoodMain.MessageBank) :
    MoodMain.tier_pool score messages ≠ [] := by
  rw [MoodMain.tier_pool]
  split
  · exact or_default_ne_nil _ _ (by simp)
  · split
    · exact or_default_ne_nil _ _ (by simp)
    · exact or_default_ne_nil _ _ (by simp)

/-- C4: `choose` returns a member of pool − (excludes ∪ {exclude}) when
that difference is non-empty, and otherwise a member of the unfiltered
tier pool, which is itself never empty (so selection never errors). -/
theorem choose_message_spec (rng : Nat) (score : Int)
    (messages : MoodMain.MessageBank) (exclude : Option String)
    (excludes : Finset String) :
    MoodMain.tier_pool score messages ≠ [] ∧
    ((∃ m ∈ MoodMain.tier_pool score messages,
        m ∉ MoodMain.exclusion_set exclude excludes) →
      MoodMain.choose_message rng score messages exclude excludes ∈
          MoodMain.tier_pool score messages ∧
        MoodMain.choose_message rng score messages exclude excludes ∉
          MoodMain.exclusion_set exclude excludes) ∧
    ((∀ m ∈ MoodMain.tier_pool score messages,
        m ∈ MoodMain.exclusion_set exclude excludes) →
      MoodMain.choose_message rng score messages exclude excludes ∈
        MoodMain.tier_pool score messages) := by
  refine ⟨tier_pool_ne_nil score messages, ?_, ?_⟩
  · rintro ⟨m, hm, hmx⟩
    have hc : (MoodMain.tier_pool score messages).filter
        (fun m => m ∉ MoodMain.exclusion_set exclude excludes) ≠ [] := by
      intro hnil
      have hmem : m ∈ (MoodMain.tier_pool score messages).filter
          (fun m => m ∉ MoodMain.exclusion_set exclude excludes) :=
        List.mem_filter.mpr ⟨hm, by simpa using hmx⟩
      rw [hnil] at hmem
      simp at hmem
    rw [MoodMain.choose_message]
    simp only [if_neg hc]
    have := random_choice_mem rng _ hc
    have h2 := List.mem_filter.mp this
    refine ⟨h2.1, by simpa using h2.2⟩
  · intro hall
    rw [MoodMain.choose_message]
    by_cases hc : (MoodMain.tier_pool score messages).filter
        (fun m => m ∉ MoodMain.exclusion_set exclude excludes) = []
    · simp only [if_pos hc]
      exact random_choice_mem rng _ (tier_pool_ne_nil score messages)
    · simp only [if_neg hc]
      exact List.mem_of_mem_filter (random_choice_mem rng _ hc)

theorem choose_message_spec_witness :
    (∀ m ∈ MoodMain.tier_pool 3 ⟨some ["A", "B"], none, none⟩,
        m ∈ MoodMain.exclusion_set none {"A", "B"}) ∧
    MoodMain.choose_message 0 3 ⟨some ["A", "B"], none, none⟩ none {"A", "B"} ∈
      MoodMain.tier_pool 3 ⟨some ["A", "B"], none, none⟩ :=
  ⟨by decide,
    (choose_message_spec 0 3 ⟨some ["A", "B"], none, none⟩ none {"A", "B"}).2.2
      (by decide)⟩

theorem recent_loop_mem (p : String → Option Int) (c t : Int) (l : List Mood.Row)
    (used : Finset String) (x : String) :
    x ∈ MoodMain.recent_loop p c t used l ↔
      x ∈ used ∨ ∃ r ∈ l, 3 ≤ r.length ∧ ∃ d, p (Mood.pyStrip (r.getD 0 "")) = some d ∧
        c ≤ d ∧ d ≤ t ∧ r.getD 2 "" = x := by
  induction l generalizing used with
  | nil => simp [MoodMain.recent_loop]
  | cons r rest ih =>
    simp only [MoodMain.recent_loop]
    by_cases h3 : 3 ≤ r.length
    · simp only [if_pos h3]
      cases hp : p (Mood.pyStrip (r.getD 0 "")) with
      | none =>
        rw [ih]
        simp only [List.mem_cons]
        constructor
        · rintro (hx | hr)
          · exact Or.inl hx
          · obtain ⟨r2, hr2, hcond⟩ := hr
            exact Or.inr ⟨r2, Or.inr hr2, hcond⟩
        · rintro (hx | ⟨r2, (rfl | hr2), hcond⟩)
          · exact Or.inl hx
          · obtain ⟨_, d, hd, _⟩ := hcond
            rw [hp] at hd
            cases hd
          · exact Or.inr ⟨r2, hr2, hcond⟩
      | some d =>
        by_cases hd : c ≤ d ∧ d ≤ t
        · simp only [if_pos hd]
          rw [ih]
          simp only [Finset.mem_insert, List.mem_cons]
          constructor
          · rintro ((rfl | hx) | hr)
            · exact Or.inr ⟨r, Or.inl rfl, h3, d, hp, hd.1, hd.2, rfl⟩
            · exact Or.inl hx
            · obtain ⟨r2, hr2, hcond⟩ := hr
              exact Or.inr ⟨r2, Or.inr hr2, hcond⟩
          · rintro (hx | ⟨r2, (rfl | hr2), hcond⟩)
            · exact Or.inl (Or.inr hx)
            · obtain ⟨_, d2, hd2, _, _, hx⟩ := hcond
              rw [hp] at hd2
              cases hd2
              exact Or.inl (Or.inl hx.symm)
            · exact Or.inr ⟨r2, hr2, hcond⟩
        · simp only [if_neg hd]
          rw [ih]
          simp only [List.mem_cons]
          constructor
          · rintro (hx | hr)
            · exact Or.inl hx
            · obtain ⟨r2, hr2, hcond⟩ := hr
              exact Or.inr ⟨r2, Or.inr hr2, hcond⟩
          · rintro (hx | ⟨r2, (rfl | hr2), hcond⟩)
            · exact Or.inl hx
            · obtain ⟨_, d2, hd2, hc1, hc2, _⟩ := hcond
              rw [hp] at hd2
              cases hd2
              exact absurd ⟨hc1, hc2⟩ hd
            · exact Or.inr ⟨r2, hr2, hcond⟩
    · simp only [if_neg h3]
      rw [ih]
      simp only [List.mem_cons]
      constructor
      · rintro (hx | hr)
        · exact Or.inl hx
        · obtain ⟨r2, hr2, hcond⟩ := hr
          exact Or.inr ⟨r2, Or.inr hr2, hcond⟩
      · rintro (hx | ⟨r2, (rfl | hr2), hcond⟩)
        · exact Or.inl hx
        · exact absurd hcond.1 h3
        · exact Or.inr ⟨r2, hr2, hcond⟩

/-- C5: for any window W the recency exclusion set is exactly the set of
message fields (3rd field) of data rows with at least 3 fields whose
stripped date field parses to a day d with today − (W−1) ≤ d ≤ today;
set semantics make duplicates collapse and order irrelevant, and no
score-tier condition restricts it. -/
theorem read_recent_messages_spec (p : String → Option Int) (today W : Int)
    (rows : List Mood.Row) (x : String) :
    x ∈ MoodMain.read_recent_messages p today W (some rows) ↔
      ∃ r ∈ rows.tail, 3 ≤ r.length ∧ ∃ d, p (Mood.pyStrip (r.getD 0 "")) = some d ∧
        today - (W - 1) ≤ d ∧ d ≤ today ∧ r.getD 2 "" = x := by
  rw [MoodMain.read_recent_messages, recent_loop_mem]
  simp

/-- C8: the score-tier mapping is score ≤ 4 → low, 5 ≤ score ≤ 7 → mid,
score ≥ 8 → high (contiguous and exhaustive over 1–10), and an absent or
empty tier list falls back to the built-in message for that tier. -/
theorem tier_mapping_spec (s : Int) (b : MoodMain.MessageBank)
    (h1 : 1 ≤ s) (h10 : s ≤ 10) :
    (s ≤ 4 → MoodMain.tier_pool s b =
      MoodMain.or_default b.low ["再难也会过去的，你已经很棒了。"]) ∧
    (5 ≤ s → s ≤ 7 → MoodMain.tier_pool s b =
      MoodMain.or_default b.mid ["保持节奏，稳步向前，就是胜利。"]) ∧
    (8 ≤ s → MoodMain.tier_pool s b =
      MoodMain.or_default b.high ["状态绝佳，继续发光！"]) ∧
    (s ≤ 4 ∨ (5 ≤ s ∧ s ≤ 7) ∨ 8 ≤ s) ∧
    (∀ (o : Option (List String)) (dflt : List String),
      o = none ∨ o = some [] → MoodMain.or_default o dflt = dflt) := by
  refine ⟨?_, ?_, ?_, by omega, ?_⟩
  · intro hs
    simp [MoodMain.tier_pool, hs]
  · intro h5 h7
    have h4 : ¬ s ≤ 4 := by omega
    simp [MoodMain.tier_pool, h4, h7]
  · intro h8
    have h4 : ¬ s ≤ 4 := by omega
    have h7 : ¬ s ≤ 7 := by omega
    simp [MoodMain.tier_pool, h4, h7]
  · rintro o dflt (rfl | rfl) <;> simp [MoodMain.or_default]

theorem tier_mapping_spec_witness :
    (1 : Int) ≤ 6 ∧ (6 : Int) ≤ 10 ∧ (5 : Int) ≤ 6 ∧ (6 : Int) ≤ 7 ∧
    MoodMain.tier_pool 6 ⟨none, some ["M1"], none⟩ =
      MoodMain.or_default (some ["M1"]) ["保持节奏，稳步向前，就是胜利。"] :=
  ⟨by decide, by decide, by decide, by decide,
    (tier_mapping_spec 6 ⟨none, some ["M1"], none⟩ (by decide) (by decide)).2.1
      (by decide) (by decide)⟩

/-- C9: the sparkline has exactly one glyph per input element in order;
a present value is clamped to [1,10] and mapped to glyph index
round((v−1)/9·7) clamped to [0,7] over the 8 graduated glyphs, an absent
value maps to the placeholder dot which is none of the 8 glyphs; an
all-absent series of length k gives k placeholders and value 10 gives
the highest glyph. -/
theorem sparkline_spec (vals : List (Option ℚ)) (k : Nat) :
    (MoodMain.to_sparkline vals).length = vals.length ∧
    (MoodMain.to_sparkline vals).toList = vals.map MoodMain.glyph ∧
    (∀ v : ℚ, MoodMain.glyph (some v) =
      MoodMain.blocks.getD
        (Int.toNat (max 0 (min 7 (Mood.pyRound ((max 1 (min 10 v) - 1) / 9 * 7))))) '·') ∧
    MoodMain.glyph none = '·' ∧
    MoodMain.blocks.length = 8 ∧
    MoodMain.to_sparkline (List.replicate k none) = String.mk (List.replicate k '·') ∧
    MoodMain.glyph (some 10) = '█' ∧
    '·' ∉ MoodMain.blocks := by
  refine ⟨?_, rfl, fun v => rfl, rfl, rfl, ?_, ?_, by decide⟩
  · simp [MoodMain.to_sparkline, String.length]
  · simp [MoodMain.to_sparkline, List.map_replicate, MoodMain.glyph]
  · simp only [MoodMain.glyph]
    norm_num [Mood.pyRound]
    decide

/-! ## Helpers for the duplicated-function claim -/

theorem dm_read_rows_eq (l : List Mood.Row) :
    DataManager.read_rows l = MoodMain.read_rows l := by
  induction l with
  | nil => rfl
  | cons r rest ih =>
    simp only [DataManager.read_rows, MoodMain.read_rows]
    by_cases h2 : 2 ≤ r.length
    · simp only [if_pos h2]
      cases hp : Mood.parseInt (r.getD 1 "") <;> simp [hp, ih]
    · simp [if_neg h2, ih]

theorem dm_agg_loop_eq (l : List (String × Int)) :
    ∀ sums counts, DataManager.agg_loop sums counts l = MoodMain.agg_loop sums counts l := by
  induction l with
  | nil => intro sums counts; rfl
  | cons p rest ih =>
    intro sums counts
    obtain ⟨d, s⟩ := p
    simp only [DataManager.agg_loop, MoodMain.agg_loop]
    exact ih _ _

theorem dm_glyph_eq : DataManager.glyph = MoodMain.glyph := by
  funext v
  cases v <;> rfl

/-- C10: the four helper functions duplicated across src/data_manager.py
and src/main.py are pairwise extensionally equal (for a fixed injected
current day and isoformat). -/
theorem duplicated_helpers_equal :
    (∀ file, DataManager.read_all_records file = MoodMain.read_all_records file) ∧
    (∀ records d, DataManager.aggregate_daily_average records d =
        MoodMain.aggregate_daily_average records d) ∧
    (∀ iso today n, DataManager.last_n_dates iso today n =
        MoodMain.last_n_dates iso today n) ∧
    (∀ vals, DataManager.to_sparkline vals = MoodMain.to_sparkline vals) := by
  refine ⟨?_, ?_, fun _ _ _ => rfl, ?_⟩
  · intro file
    cases file with
    | none => rfl
    | some content =>
      simp only [DataManager.read_all_records, MoodMain.read_all_records]
      exact dm_read_rows_eq content.tail
  · intro records d
    simp only [DataManager.aggregate_daily_average, MoodMain.aggregate_daily_average,
      dm_agg_loop_eq]
  · intro vals
    simp only [DataManager.to_sparkline, MoodMain.to_sparkline, dm_glyph_eq]

/-! ## Helpers for the aligned-series claim -/

theorem dm_agg_loop_fst_none (l : List (String × Int)) :
    ∀ (sums counts : String → Option Int) (d : String),
      ((DataManager.agg_loop sums counts l).1 d = none) ↔
        (sums d = none ∧ ∀ p ∈ l, p.1 ≠ d) := by
  induction l with
  | nil =>
    intro sums counts d
    simp [DataManager.agg_loop]
  | cons p rest ih =>
    intro sums counts d
    obtain ⟨a, s⟩ := p
    simp only [DataManager.agg_loop]
    rw [ih]
    by_cases hda : d = a
    · subst hda
      simp
    · have had : a ≠ d := fun h => hda h.symm
      simp [hda, had, List.forall_mem_cons]

theorem dm_agg_loop_snd_none (l : List (String × Int)) :
    ∀ (sums counts : String → Option Int) (d : String),
      ((DataManager.agg_loop sums counts l).2 d = none) ↔
        (counts d = none ∧ ∀ p ∈ l, p.1 ≠ d) := by
  induction l with
  | nil =>
    intro sums counts d
    simp [DataManager.agg_loop]
  | cons p rest ih =>
    intro sums counts d
    obtain ⟨a, s⟩ := p
    simp only [DataManager.agg_loop]
    rw [ih]
    by_cases hda : d = a
    · subst hda
      simp
    · have had : a ≠ d := fun h => hda h.symm
      simp [hda, had, List.forall_mem_cons]

theorem dm_aggregate_none_iff (records : List (String × Int)) (d : String) :
    DataManager.aggregate_daily_average records d = none ↔
      ∀ p ∈ records, p.1 ≠ d := by
  have hfst := dm_agg_loop_fst_none records (fun _ => none) (fun _ => none) d
  have hsnd := dm_agg_loop_snd_none records (fun _ => none) (fun _ => none) d
  simp only [DataManager.aggregate_daily_average]
  constructor
  · intro h p hp hpd
    have h1 : (DataManager.agg_loop (fun _ => none) (fun _ => none) records).1 d ≠ none :=
      fun hn => ((hfst.mp hn).2 p hp) hpd
    have h2 : (DataManager.agg_loop (fun _ => none) (fun _ => none) records).2 d ≠ none :=
      fun hn => ((hsnd.mp hn).2 p hp) hpd
    obtain ⟨sv, hs⟩ := Option.ne_none_iff_exists'.mp h1
    obtain ⟨cv, hc⟩ := Option.ne_none_iff_exists'.mp h2
    rw [hs, hc] at h
    cases h
  · intro hnone
    rw [hfst.mpr ⟨rfl, hnone⟩, hsnd.mpr ⟨rfl, hnone⟩]

theorem dm_last_n_dates_length (iso : Int → String) (today : Int) (n : Nat) :
    (DataManager.last_n_dates iso today n).length = n := by
  simp [DataManager.last_n_dates]

theorem dm_last_n_dates_getD (iso : Int → String) (today : Int) (n i : Nat)
    (hi : i < n) :
    (DataManager.last_n_dates iso today n).getD i "" =
      iso (today - ((n : Int) - 1 - (i : Int))) := by
  have hlen : i < (DataManager.last_n_dates iso today n).length := by
    simpa [DataManager.last_n_dates] using hi
  rw [List.getD_eq_getElem?_getD, List.getElem?_eq_getElem hlen, Option.getD_some]
  simp only [DataManager.last_n_dates] at hlen ⊢
  rw [List.getElem_map, List.getElem_map, List.getElem_reverse, List.getElem_range]
  congr 1
  simp only [List.length_reverse, List.length_range]
  omega

theorem getD_map_of_lt {α β : Type} (f : α → β) (l : List α) (i : Nat)
    (hi : i < l.length) (da : α) (db : β) :
    (l.map f).getD i db = f (l.getD i da) := by
  rw [List.getD_eq_getElem?_getD, List.getElem?_eq_getElem (by simpa using hi),
      Option.getD_some, List.getD_eq_getElem?_getD, List.getElem?_eq_getElem hi,
      Option.getD_some, List.getElem_map]

/-- C1 (amended): whenever at least one record parses, alignedSeries(n)
for n ≥ 1 has exactly n entries, its day labels are the ISO labels of
the n contiguous calendar days ending on the current day, oldest first,
and each day's value is that day's daily average, with the distinct
absent marker (Option.none, never a number) exactly for days carried by
no parsed record. -/
theorem read_aligned_series_spec (iso : Int → String) (today : Int) (n : Nat)
    (file : Option (List Mood.Row)) (hn : 1 ≤ n)
    (hrec : DataManager.read_all_records file ≠ []) :
    (DataManager.read_aligned_series iso today n file).1.length = n ∧
    (DataManager.read_aligned_series iso today n file).2.length = n ∧
    (∀ i : Nat, i < n →
      (DataManager.read_aligned_series iso today n file).1.getD i "" =
        iso (today - ((n : Int) - 1 - (i : Int)))) ∧
    (∀ i : Nat, i < n →
      (DataManager.read_aligned_series iso today n file).2.getD i none =
        DataManager.aggregate_daily_average (DataManager.read_all_records file)
          ((DataManager.read_aligned_series iso today n file).1.getD i "") ∧
      ((DataManager.read_aligned_series iso today n file).2.getD i none = none ↔
        ∀ p ∈ DataManager.read_all_records file,
          p.1 ≠ (DataManager.read_aligned_series iso today n file).1.getD i "")) := by
  have hser : DataManager.read_aligned_series iso today n file =
      (DataManager.last_n_dates iso today n,
       (DataManager.last_n_dates iso today n).map
         (fun d => DataManager.aggregate_daily_average
           (DataManager.read_all_records file) d)) := by
    simp only [DataManager.read_aligned_series, if_neg hrec]
  rw [hser]
  have hdl : (DataManager.last_n_dates iso today n).length = n :=
    dm_last_n_dates_length iso today n
  refine ⟨hdl, by simpa using hdl, fun i hi => dm_last_n_dates_getD iso today n i hi, ?_⟩
  intro i hi
  have hi' : i < (DataManager.last_n_dates iso today n).length := by
    rw [hdl]; exact hi
  have hmap : ((DataManager.last_n_dates iso today n).map
      (fun d => DataManager.aggregate_daily_average
        (DataManager.read_all_records file) d)).getD i none =
      DataManager.aggregate_daily_average (DataManager.read_all_records file)
        ((DataManager.last_n_dates iso today n).getD i "") :=
    getD_map_of_lt _ _ i hi' "" none
  refine ⟨hmap, ?_⟩
  rw [hmap]
  exact dm_aggregate_none_iff (DataManager.read_all_records file)
    ((DataManager.last_n_dates iso today n).getD i "")

theorem read_aligned_series_spec_witness :
    1 ≤ 2 ∧
    DataManager.read_all_records
        (some [["date", "score", "message", "note"], ["0", "5", "hi", ""]]) ≠ [] ∧
    (DataManager.read_aligned_series (fun z => toString z) 0 2
        (some [["date", "score", "message", "note"], ["0", "5", "hi", ""]])).1.length = 2 :=
  ⟨by decide, by decide,
    (read_aligned_series_spec (fun z => toString z) 0 2
        (some [["date", "score", "message", "note"], ["0", "5", "hi", ""]])
        (by decide) (by decide)).1⟩

/-- C1 counterexample: with n = 3 ≥ 1 and a header-only log (no parsed
records) the aligned series is empty, not of length 3, refuting the
claim that alignedSeries(n) always has length exactly n. -/
theorem read_aligned_series_counterexample :
    (DataManager.read_aligned_series (fun z => toString z) 0 3
        (some [["date", "score", "message", "note"]])).1.length ≠ 3 ∧
    (DataManager.read_aligned_series (fun z => toString z) 0 3
        (some [["date", "score", "message", "note"]])).2.length ≠ 3 := by
  constructor <;> decide
